import Mathlib

/-!
Verification of the V-ZUG appliance API client (`custom_components/vzug/api`).

The development shallowly embeds the client's core logic:

* `once` — one attempt of `VZugApi._command`: HTTP status check, raw mode,
  JSON decode with repair, null-to-list coercion, type and emptiness
  validation.
* `runCommand` — the retry loop of `VZugApi._command` over a trace of
  per-request events, recording the sleeps performed and the number of
  requests issued.
* `aggregate_meta_combine` — the combination step of `VZugApi.aggregate_meta`
  applied to the results of the individual fetches.
* `get_eco_info_post` — the zero-total normalisation in `VZugApi.get_eco_info`.
* `Program.build` — the fixed-key / option split of program mappings.
* accessor call descriptors and the parameter-mutation model of
  `VZugApi.set_program` and `VZugApi._command`.

JSON values are modelled by `JVal` with rational numbers; Python dictionaries
are association lists with pairwise-distinct keys.
-/

namespace VZug

/-- A JSON value as decoded by Python's `json` module (numbers as rationals,
objects as association lists; a Python `dict` has pairwise distinct keys). -/
inductive JVal where
  | null : JVal
  | bool (b : Bool) : JVal
  | num (q : Rat) : JVal
  | str (s : String) : JVal
  | arr (xs : List JVal) : JVal
  | obj (fields : List (String × JVal)) : JVal

/-- The Python exceptions that `VZugApi._command` distinguishes. -/
inductive PyExc where
  | httpStatusError (status : Nat) : PyExc
  | transportError : PyExc
  | authenticationFailed : PyExc
  | assertionError (msg : String) : PyExc
  | valueError (msg : String) : PyExc
  | otherError (msg : String) : PyExc
deriving DecidableEq, Repr

/-- How the body of an HTTP response behaves under `resp.json()` and the
`json_repair` fallback: empty content (decode raises, treated as `None`),
well-formed JSON, or malformed JSON together with the result of the repair
pass (`none` when repair fails too). -/
inductive Body where
  | empty : Body
  | jsonOf (v : JVal) : Body
  | malformed (repaired : Option JVal) : Body

/-- An HTTP response as seen by one attempt: status code, text, and the
decode behaviour of the body. -/
structure HttpResponse where
  status : Nat
  text : String
  body : Body

/-- What one GET issued by the retry loop produces: a response, or an
`httpx.TransportError`. -/
inductive AttemptEvent where
  | response (r : HttpResponse) : AttemptEvent
  | transportFailure : AttemptEvent

/-- The `expected_type` argument of `VZugApi._command` (callers pass
`dict`, `list`, or `None`). -/
inductive ExpectedType where
  | noneE : ExpectedType
  | dictE : ExpectedType
  | listE : ExpectedType
deriving DecidableEq, Repr

/-- The keyword configuration of `VZugApi._command`; defaults are the
Python defaults. `valueOnErr` holds the value the zero-argument
`value_on_err` callback would return. -/
structure CommandConfig where
  raw : Bool := false
  expectedType : ExpectedType := .noneE
  rejectEmpty : Bool := false
  attempts : Nat := 5
  retryDelay : Rat := 2
  valueOnErr : Option JVal := none

/-- Python `len` on a decoded JSON value (`None` when `len` raises
`TypeError`). -/
def pyLen : JVal → Option Nat
  | .str s => some s.length
  | .arr xs => some xs.length
  | .obj fs => some fs.length
  | _ => none

/-- `data is None` check. -/
def isNull : JVal → Bool
  | .null => true
  | _ => false

/-- The decode step of one attempt: `resp.json()`, with the repair fallback
for non-empty malformed bodies and `None` for empty bodies. -/
def decodeBody : Body → Except PyExc JVal
  | .empty => .ok .null
  | .jsonOf v => .ok v
  | .malformed none => .error (.valueError "invalid json payload")
  | .malformed (some v) => .ok v

/-- `isinstance(data, expected_type)` for the two concrete types callers
pass. -/
def typeMatches : ExpectedType → JVal → Bool
  | .noneE, _ => true
  | .dictE, .obj _ => true
  | .dictE, _ => false
  | .listE, .arr _ => true
  | .listE, _ => false

/-- One attempt of `VZugApi._command` (the inner `once` coroutine):
`raise_for_status`, raw mode, JSON decode/repair, null-to-`[]` coercion for
list expectations, the `isinstance` assertion, and the `reject_empty`
assertion. -/
def once (cfg : CommandConfig) : AttemptEvent → Except PyExc JVal
  | .transportFailure => .error .transportError
  | .response r =>
    if ¬ (200 ≤ r.status ∧ r.status ≤ 299) then
      .error (.httpStatusError r.status)
    else if cfg.raw then
      .ok (.str r.text)
    else
      match decodeBody r.body with
      | .error e => .error e
      | .ok data0 =>
        let data := if cfg.expectedType = .listE ∧ isNull data0 then .arr [] else data0
        if cfg.expectedType ≠ .noneE ∧ ¬ typeMatches cfg.expectedType data then
          .error (.assertionError "data type mismatch")
        else if cfg.rejectEmpty then
          match pyLen data with
          | some n => if 0 < n then .ok data else .error (.assertionError "empty response rejected")
          | none => .error (.otherError "TypeError: len() of non-sized value")
        else
          .ok data

/-- The mutable state of the retry loop: `attempt_idx`, the number of GETs
issued so far, the sleeps performed so far, and `last_exc`. -/
structure LoopState where
  attemptIdx : Nat
  requests : Nat
  sleeps : List Rat
  lastExc : PyExc

/-- The observable result of one `VZugApi._command` execution: the returned
value or raised exception, the number of GETs issued, the sleeps performed
(in order), and whether `value_on_err` was invoked. -/
structure CommandResult where
  outcome : Except PyExc JVal
  requests : Nat
  sleeps : List Rat
  usedFallback : Bool

/-- The retry loop of `VZugApi._command`, fuel-indexed (the `continue` in
the transport-error handler re-enters the loop without advancing
`attempt_idx`, so the loop is not structurally terminating). `env n` is the
outcome of the `(n+1)`-th GET issued. -/
def runLoopAux (cfg : CommandConfig) (env : Nat → AttemptEvent) :
    Nat → LoopState → Option CommandResult
  | 0, _ => none
  | fuel + 1, st =>
    if st.attemptIdx < cfg.attempts then
      let sleeps := st.sleeps ++ [(st.attemptIdx : Rat) * cfg.retryDelay]
      match once cfg (env st.requests) with
      | .ok v => some ⟨.ok v, st.requests + 1, sleeps, false⟩
      | .error (.httpStatusError s) =>
        if s = 401 then
          some ⟨.error .authenticationFailed, st.requests + 1, sleeps, false⟩
        else if ¬ (500 ≤ s ∧ s ≤ 599) then
          some ⟨.error (.httpStatusError s), st.requests + 1, sleeps, false⟩
        else
          runLoopAux cfg env fuel
            ⟨st.attemptIdx + 1, st.requests + 1, sleeps, .httpStatusError s⟩
      | .error .transportError =>
        runLoopAux cfg env fuel
          ⟨st.attemptIdx, st.requests + 1, sleeps, .transportError⟩
      | .error e =>
        runLoopAux cfg env fuel
          ⟨st.attemptIdx + 1, st.requests + 1, sleeps, e⟩
    else
      match cfg.valueOnErr with
      | some v => some ⟨.ok v, st.requests, st.sleeps, true⟩
      | none => some ⟨.error st.lastExc, st.requests, st.sleeps, false⟩

/-- A full execution of `VZugApi._command` from the initial loop state
(`attempt_idx = 0`, `last_exc = ValueError("no attempts made")`). -/
def runCommand (cfg : CommandConfig) (env : Nat → AttemptEvent) (fuel : Nat) :
    Option CommandResult :=
  runLoopAux cfg env fuel ⟨0, 0, [], .valueError "no attempts made"⟩

/-- The status code carried by an event (0 for a transport failure). -/
def eventStatus : AttemptEvent → Nat
  | .response r => r.status
  | .transportFailure => 0

/-- The event is an HTTP 401 response. -/
def eventIs401 : AttemptEvent → Bool
  | .response r => r.status = 401
  | .transportFailure => false

/-- The event is an HTTP 5xx response. -/
def is5xxEvent : AttemptEvent → Bool
  | .response r => decide (500 ≤ r.status) && decide (r.status ≤ 599)
  | .transportFailure => false

/-- The event is an HTTP 4xx response other than 401. -/
def is4xxNot401Event : AttemptEvent → Bool
  | .response r =>
    decide (400 ≤ r.status) && decide (r.status ≤ 499) && decide (r.status ≠ 401)
  | .transportFailure => false

/-- Exceptions that the retry loop catches and retries while advancing
`attempt_idx`: retryable (5xx) status errors, assertion failures, decode
failures, and the defensive catch-all — everything except the 401 and
non-5xx status raises, and except transport errors (whose handler ends in
`continue` and does not advance `attempt_idx`). -/
def PyExc.retriesWithIncrement : PyExc → Bool
  | .httpStatusError s => decide (500 ≤ s) && decide (s ≤ 599)
  | .transportError => false
  | .authenticationFailed => true
  | .assertionError _ => true
  | .valueError _ => true
  | .otherError _ => true

/-- The attempt at this event fails in a way the loop retries with an
`attempt_idx` increment. -/
def retryIncEvent (cfg : CommandConfig) (ev : AttemptEvent) : Bool :=
  match once cfg ev with
  | .ok _ => false
  | .error e => e.retriesWithIncrement

theorem once_non2xx (cfg : CommandConfig) (r : HttpResponse)
    (h : ¬ (200 ≤ r.status ∧ r.status ≤ 299)) :
    once cfg (.response r) = .error (.httpStatusError r.status) := by
  simp [once, h]

theorem runLoopAux_exhaust (cfg : CommandConfig) (env : Nat → AttemptEvent)
    (fuel : Nat) (st : LoopState) (h : cfg.attempts ≤ st.attemptIdx) :
    runLoopAux cfg env (fuel + 1) st =
      some ⟨(match cfg.valueOnErr with
             | some v => .ok v
             | none => .error st.lastExc),
            st.requests, st.sleeps, cfg.valueOnErr.isSome⟩ := by
  rw [runLoopAux]
  rw [if_neg (by omega)]
  cases cfg.valueOnErr <;> rfl

theorem runLoopAux_401 (cfg : CommandConfig) (env : Nat → AttemptEvent)
    (fuel : Nat) (st : LoopState) (r : HttpResponse)
    (hlt : st.attemptIdx < cfg.attempts)
    (henv : env st.requests = .response r)
    (h : r.status = 401) :
    runLoopAux cfg env (fuel + 1) st =
      some ⟨.error .authenticationFailed, st.requests + 1,
            st.sleeps ++ [(st.attemptIdx : Rat) * cfg.retryDelay], false⟩ := by
  have h2 : ¬ (200 ≤ r.status ∧ r.status ≤ 299) := by omega
  rw [runLoopAux, if_pos hlt, henv, once_non2xx cfg r h2]
  simp [h]

theorem runLoopAux_nonretryable (cfg : CommandConfig) (env : Nat → AttemptEvent)
    (fuel : Nat) (st : LoopState) (r : HttpResponse)
    (hlt : st.attemptIdx < cfg.attempts)
    (henv : env st.requests = .response r)
    (h2 : ¬ (200 ≤ r.status ∧ r.status ≤ 299))
    (h5 : ¬ (500 ≤ r.status ∧ r.status ≤ 599))
    (h401 : r.status ≠ 401) :
    runLoopAux cfg env (fuel + 1) st =
      some ⟨.error (.httpStatusError r.status), st.requests + 1,
            st.sleeps ++ [(st.attemptIdx : Rat) * cfg.retryDelay], false⟩ := by
  rw [runLoopAux, if_pos hlt, henv, once_non2xx cfg r h2]
  simp [h401, h5]

theorem runLoopAux_5xx_step (cfg : CommandConfig) (env : Nat → AttemptEvent)
    (fuel : Nat) (st : LoopState) (r : HttpResponse)
    (hlt : st.attemptIdx < cfg.attempts)
    (henv : env st.requests = .response r)
    (h5 : 500 ≤ r.status ∧ r.status ≤ 599) :
    runLoopAux cfg env (fuel + 1) st =
      runLoopAux cfg env fuel
        ⟨st.attemptIdx + 1, st.requests + 1,
         st.sleeps ++ [(st.attemptIdx : Rat) * cfg.retryDelay],
         .httpStatusError r.status⟩ := by
  have h2 : ¬ (200 ≤ r.status ∧ r.status ≤ 299) := by omega
  have h401 : ¬ r.status = 401 := by omega
  rw [runLoopAux, if_pos hlt, henv, once_non2xx cfg r h2]
  simp [h401, h5]

theorem runLoopAux_retry_step (cfg : CommandConfig) (env : Nat → AttemptEvent)
    (fuel : Nat) (st : LoopState) (e : PyExc)
    (hlt : st.attemptIdx < cfg.attempts)
    (honce : once cfg (env st.requests) = .error e)
    (he : e.retriesWithIncrement = true) :
    runLoopAux cfg env (fuel + 1) st =
      runLoopAux cfg env fuel
        ⟨st.attemptIdx + 1, st.requests + 1,
         st.sleeps ++ [(st.attemptIdx : Rat) * cfg.retryDelay], e⟩ := by
  cases e with
  | httpStatusError s =>
    simp only [PyExc.retriesWithIncrement, Bool.and_eq_true, decide_eq_true_eq] at he
    have h401 : ¬ s = 401 := by omega
    rw [runLoopAux, if_pos hlt, honce]
    simp [h401, he.1, he.2]
  | transportError => simp [PyExc.retriesWithIncrement] at he
  | authenticationFailed => rw [runLoopAux, if_pos hlt, honce]
  | assertionError msg => rw [runLoopAux, if_pos hlt, honce]
  | valueError msg => rw [runLoopAux, if_pos hlt, honce]
  | otherError msg => rw [runLoopAux, if_pos hlt, honce]

theorem sleeps_cons (idx k : Nat) (d : Rat) (pre : List Rat) :
    (pre ++ [(idx : Rat) * d]) ++
      (List.range k).map (fun i => ((idx + 1 + i : Nat) : Rat) * d) =
    pre ++ (List.range (k + 1)).map (fun i => ((idx + i : Nat) : Rat) * d) := by
  rw [List.append_assoc]
  congr 1
  rw [List.range_succ_eq_map, List.map_cons, List.map_map]
  simp only [Nat.add_zero, List.singleton_append, List.cons.injEq]
  refine ⟨trivial, ?_⟩
  apply List.map_congr_left
  intro a _
  simp only [Function.comp]
  congr 2
  omega

theorem runLoopAux_auth_of_prefix (cfg : CommandConfig) (env : Nat → AttemptEvent) :
    ∀ (k : Nat) (st : LoopState) (f : Nat),
      st.attemptIdx + k < cfg.attempts →
      (∀ j, j < k → retryIncEvent cfg (env (st.requests + j)) = true) →
      eventIs401 (env (st.requests + k)) = true →
      runLoopAux cfg env (k + (f + 1)) st =
        some ⟨.error .authenticationFailed, st.requests + k + 1,
              st.sleeps ++ (List.range (k + 1)).map
                (fun i => ((st.attemptIdx + i : Nat) : Rat) * cfg.retryDelay),
              false⟩ := by
  intro k
  induction k with
  | zero =>
    intro st f hlt _ h401
    cases henv : env (st.requests + 0) with
    | transportFailure => rw [henv] at h401; simp [eventIs401] at h401
    | response r =>
      rw [henv] at h401
      simp only [eventIs401, decide_eq_true_eq] at h401
      have henv' : env st.requests = .response r := by
        simpa using henv
      rw [Nat.zero_add, runLoopAux_401 cfg env f st r (by omega) henv' h401]
      simp [List.range_succ]
  | succ k ih =>
    intro st f hlt hpre h401
    have h0 : retryIncEvent cfg (env (st.requests + 0)) = true := hpre 0 (by omega)
    simp only [Nat.add_zero] at h0
    rw [retryIncEvent] at h0
    revert h0
    cases honce : once cfg (env st.requests) with
    | ok v => intro h0; simp at h0
    | error e =>
      intro h0
      have hfuel : k + 1 + (f + 1) = (k + (f + 1)) + 1 := by omega
      rw [hfuel, runLoopAux_retry_step cfg env (k + (f + 1)) st e (by omega) honce h0]
      rw [ih ⟨st.attemptIdx + 1, st.requests + 1,
            st.sleeps ++ [(st.attemptIdx : Rat) * cfg.retryDelay], e⟩ f
          (by simp; omega)
          (by intro j hj
              have := hpre (j + 1) (by omega)
              simpa [Nat.add_assoc, Nat.add_comm 1 j] using this)
          (by have : st.requests + 1 + k = st.requests + (k + 1) := by omega
              simpa [this] using h401)]
      simp only [Option.some.injEq]
      congr 1
      · omega
      · exact sleeps_cons st.attemptIdx (k + 1) cfg.retryDelay st.sleeps

theorem runLoopAux_all5xx (cfg : CommandConfig) (env : Nat → AttemptEvent) :
    ∀ (n : Nat) (st : LoopState) (f : Nat),
      st.attemptIdx + n = cfg.attempts →
      (∀ j, j < n → is5xxEvent (env (st.requests + j)) = true) →
      runLoopAux cfg env (n + (f + 1)) st =
        some ⟨(match cfg.valueOnErr with
               | some v => .ok v
               | none => .error (if n = 0 then st.lastExc
                   else .httpStatusError (eventStatus (env (st.requests + (n - 1)))))),
              st.requests + n,
              st.sleeps ++ (List.range n).map
                (fun i => ((st.attemptIdx + i : Nat) : Rat) * cfg.retryDelay),
              cfg.valueOnErr.isSome⟩ := by
  intro n
  induction n with
  | zero =>
    intro st f heq _
    rw [Nat.zero_add, runLoopAux_exhaust cfg env f st (by omega)]
    simp
  | succ n ih =>
    intro st f heq h5
    have h0 : is5xxEvent (env (st.requests + 0)) = true := h5 0 (by omega)
    simp only [Nat.add_zero] at h0
    cases henv : env st.requests with
    | transportFailure => rw [henv] at h0; simp [is5xxEvent] at h0
    | response r =>
      rw [henv] at h0
      simp only [is5xxEvent, Bool.and_eq_true, decide_eq_true_eq] at h0
      have hfuel : n + 1 + (f + 1) = (n + (f + 1)) + 1 := by omega
      rw [hfuel, runLoopAux_5xx_step cfg env (n + (f + 1)) st r (by omega) henv h0]
      rw [ih ⟨st.attemptIdx + 1, st.requests + 1,
            st.sleeps ++ [(st.attemptIdx : Rat) * cfg.retryDelay],
            .httpStatusError r.status⟩ f
          (by simp; omega)
          (by intro j hj
              have := h5 (j + 1) (by omega)
              simpa [Nat.add_assoc, Nat.add_comm 1 j] using this)]
      simp only [Option.some.injEq, CommandResult.mk.injEq]
      refine ⟨?_, by omega, sleeps_cons st.attemptIdx n cfg.retryDelay st.sleeps, trivial⟩
      cases n with
      | zero => cases cfg.valueOnErr <;> simp [henv, eventStatus]
      | succ m =>
        have h2 : st.requests + 1 + m = st.requests + (m + 1) := by omega
        cases cfg.valueOnErr <;> simp [h2]

/-- C1: in every `_command` execution in which a request attempt receives an
HTTP 401 response (after any prefix of attempts that fail retryably), the
distinguished `AuthenticationFailed` signal is raised from that attempt,
regardless of `attempts`, `retry_delay` and `value_on_err`: exactly the
requests up to and including the 401 are issued, and the `value_on_err`
fallback is never invoked. -/
theorem command_401_raises_auth_immediately
    (cfg : CommandConfig) (env : Nat → AttemptEvent) (k f : Nat)
    (hk : k < cfg.attempts)
    (hpre : ∀ j, j < k → retryIncEvent cfg (env j) = true)
    (h401 : eventIs401 (env k) = true) :
    runCommand cfg env (k + (f + 1)) =
      some ⟨.error .authenticationFailed, k + 1,
            (List.range (k + 1)).map (fun i => ((i : Nat) : Rat) * cfg.retryDelay),
            false⟩ := by
  have h := runLoopAux_auth_of_prefix cfg env k
    ⟨0, 0, [], .valueError "no attempts made"⟩ f
    (by simpa using hk) (by simpa using hpre) (by simpa using h401)
  simpa [runCommand] using h

/-- Witness for C1: five configured attempts, a supplied `value_on_err`, and
a 401 on the very first request still produce `AuthenticationFailed` after a
single request with no fallback. -/
theorem command_401_raises_auth_immediately_witness :
    (0 : Nat) < 5 ∧
    eventIs401 ((fun _ => .response ⟨401, "", .empty⟩ : Nat → AttemptEvent) 0) = true ∧
    runCommand { attempts := 5, valueOnErr := some (.num 7) }
        (fun _ => .response ⟨401, "", .empty⟩) (0 + (4 + 1)) =
      some ⟨.error .authenticationFailed, 0 + 1,
            (List.range (0 + 1)).map (fun i => ((i : Nat) : Rat) * (2 : Rat)),
            false⟩ :=
  ⟨by decide, by decide,
   command_401_raises_auth_immediately
     { attempts := 5, valueOnErr := some (.num 7) }
     (fun _ => .response ⟨401, "", .empty⟩) 0 4 (by decide)
     (fun j hj => absurd hj (by omega)) (by decide)⟩

theorem runCommand_all5xx
    (cfg : CommandConfig) (env : Nat → AttemptEvent) (f : Nat)
    (hpos : 0 < cfg.attempts)
    (h5 : ∀ j, j < cfg.attempts → is5xxEvent (env j) = true) :
    runCommand cfg env (cfg.attempts + (f + 1)) =
      some ⟨(match cfg.valueOnErr with
             | some v => .ok v
             | none => .error (.httpStatusError (eventStatus (env (cfg.attempts - 1))))),
            cfg.attempts,
            (List.range cfg.attempts).map (fun i => ((i : Nat) : Rat) * cfg.retryDelay),
            cfg.valueOnErr.isSome⟩ := by
  have h := runLoopAux_all5xx cfg env cfg.attempts
    ⟨0, 0, [], .valueError "no attempts made"⟩ f (by simp) (by simpa using h5)
  have hne : ¬ cfg.attempts = 0 := by omega
  cases hv : cfg.valueOnErr <;> simpa [runCommand, hne, hv] using h

/-- C2: in every `_command` execution in which every attempt receives an
HTTP 5xx response, exactly `attempts` requests are issued, the `n`-th
attempt (1-indexed) is preceded by a sleep of `(n-1) * retry_delay`, and
after exhaustion the result is the `value_on_err` value if one was supplied
and otherwise the last recorded 5xx status error is raised. -/
theorem command_all_5xx_exhausts_attempts
    (cfg : CommandConfig) (env : Nat → AttemptEvent) (f : Nat)
    (hpos : 0 < cfg.attempts)
    (h5 : ∀ j, j < cfg.attempts → is5xxEvent (env j) = true) :
    runCommand cfg env (cfg.attempts + (f + 1)) =
      some ⟨(match cfg.valueOnErr with
             | some v => .ok v
             | none => .error (.httpStatusError (eventStatus (env (cfg.attempts - 1))))),
            cfg.attempts,
            (List.range cfg.attempts).map (fun i => ((i : Nat) : Rat) * cfg.retryDelay),
            cfg.valueOnErr.isSome⟩ :=
  runCommand_all5xx cfg env f hpos h5

/-- Witness for C2: five attempts, all answered 500, no `value_on_err`:
five requests, sleeps `0, d, 2d, 3d, 4d`, and the last 500 raised. -/
theorem command_all_5xx_exhausts_attempts_witness :
    (0 : Nat) < 5 ∧
    (∀ j, j < 5 →
      is5xxEvent ((fun _ => .response ⟨500, "", .empty⟩ : Nat → AttemptEvent) j) = true) ∧
    runCommand {} (fun _ => .response ⟨500, "", .empty⟩) (5 + (0 + 1)) =
      some ⟨.error (.httpStatusError 500), 5,
            (List.range 5).map (fun i => ((i : Nat) : Rat) * (2 : Rat)),
            false⟩ :=
  ⟨by decide, fun j hj => rfl,
   command_all_5xx_exhausts_attempts {} (fun _ => .response ⟨500, "", .empty⟩) 0
     (by decide) (fun j hj => rfl)⟩

/-- C3: in every `_command` execution whose first attempt receives an HTTP
4xx response other than 401, exactly one request is issued and the HTTP
status error propagates unchanged, bypassing both the retry loop and any
configured `value_on_err` fallback. -/
theorem command_4xx_propagates_single_attempt
    (cfg : CommandConfig) (env : Nat → AttemptEvent) (f : Nat)
    (hpos : 0 < cfg.attempts)
    (h4 : is4xxNot401Event (env 0) = true) :
    runCommand cfg env (f + 1) =
      some ⟨.error (.httpStatusError (eventStatus (env 0))), 1, [0], false⟩ := by
  cases henv : env 0 with
  | transportFailure => rw [henv] at h4; simp [is4xxNot401Event] at h4
  | response r =>
    rw [henv] at h4
    simp only [is4xxNot401Event, Bool.and_eq_true, decide_eq_true_eq] at h4
    obtain ⟨⟨h400, h499⟩, h401⟩ := h4
    rw [runCommand,
      runLoopAux_nonretryable cfg env f ⟨0, 0, [], .valueError "no attempts made"⟩ r
        (by simpa using hpos) (by simpa using henv) (by omega) (by omega) h401]
    simp [henv, eventStatus]

/-- Witness for C3: a 404 on the first attempt with a `value_on_err`
configured and five attempts allowed still propagates after one request. -/
theorem command_4xx_propagates_single_attempt_witness :
    (0 : Nat) < 5 ∧
    is4xxNot401Event ((fun _ => .response ⟨404, "", .empty⟩ : Nat → AttemptEvent) 0) = true ∧
    runCommand { valueOnErr := some (.num 3) }
        (fun _ => .response ⟨404, "", .empty⟩) (0 + 1) =
      some ⟨.error (.httpStatusError 404), 1, [0], false⟩ :=
  ⟨by decide, by decide,
   command_4xx_propagates_single_attempt { valueOnErr := some (.num 3) }
     (fun _ => .response ⟨404, "", .empty⟩) 0 (by decide) (by decide)⟩

/-- C4 counterexample: with `expected_type=list`, `raw=False` and
`reject_empty=True`, a 2xx response with an empty body (which decodes to
null) does not yield the empty list — the coerced `[]` fails the
`reject_empty` assertion, so the attempt ends in a validation error. -/
theorem command_list_null_with_reject_empty_fails :
    once { expectedType := .listE, rejectEmpty := true }
        (.response ⟨200, "", .empty⟩) =
      .error (.assertionError "empty response rejected") :=
  rfl

/-- C4 (amended): for every `_command` configuration with `expected_type`
set to list, `raw` false and `reject_empty` false, a 2xx response that
decodes to null — including an empty body, which is treated as null rather
than an error — makes the attempt's result the empty list (never null and
never a decode or validation error). -/
theorem command_list_null_coerced_to_empty_list
    (cfg : CommandConfig) (r : HttpResponse)
    (hraw : cfg.raw = false)
    (hty : cfg.expectedType = .listE)
    (hre : cfg.rejectEmpty = false)
    (h2xx : 200 ≤ r.status ∧ r.status ≤ 299)
    (hbody : r.body = .empty ∨ r.body = .jsonOf .null) :
    once cfg (.response r) = .ok (.arr []) := by
  rcases hbody with h | h <;>
    simp [once, h2xx, hraw, hty, hre, h, decodeBody, isNull, typeMatches]

/-- Witness for C4 (amended): the default list-read configuration applied
to a 200 response with an empty body yields `[]`. -/
theorem command_list_null_coerced_to_empty_list_witness :
    ((false = false) ∧ (ExpectedType.listE = ExpectedType.listE) ∧ (false = false) ∧
      (200 ≤ 200 ∧ 200 ≤ 299)) ∧
    once { expectedType := .listE } (.response ⟨200, "", .empty⟩) = .ok (.arr []) :=
  ⟨⟨rfl, rfl, rfl, by omega⟩,
   command_list_null_coerced_to_empty_list { expectedType := .listE }
     ⟨200, "", .empty⟩ rfl rfl rfl (by decide) (Or.inl rfl)⟩

/-- First-match lookup in a Python dict modelled as an association list
(keys are pairwise distinct, so first match is the match). -/
def dictLookup : List (String × JVal) → String → Option JVal
  | [], _ => none
  | (k, v) :: rest, key => if k = key then some v else dictLookup rest key

/-- Python `d.get(key, default)`; a non-dict receiver raises
`AttributeError`. -/
def jGet (v : JVal) (key : String) (dflt : JVal) : Except PyExc JVal :=
  match v with
  | .obj fs => .ok ((dictLookup fs key).getD dflt)
  | _ => .error (.otherError "AttributeError: get")

/-- Python truthiness of a decoded JSON value (`if device_info:` in
`aggregate_meta`). -/
def pyTruthy : JVal → Bool
  | .null => false
  | .bool b => b
  | .num q => q ≠ 0
  | .str s => s ≠ ""
  | .arr xs => !xs.isEmpty
  | .obj fs => !fs.isEmpty

/-- The string content of a value on which the code calls the `str` method
`split`; a non-string receiver raises `AttributeError`. -/
def asPyStr : JVal → Except PyExc String
  | .str s => .ok s
  | _ => .error (.otherError "AttributeError: split")

/-- Whitespace stripped by Python's `int(str)` conversion. -/
def isPySpace (c : Char) : Bool :=
  c = ' ' ∨ c = '\t' ∨ c = '\n' ∨ c = '\r' ∨ c.toNat = 11 ∨ c.toNat = 12

/-- Strip leading and trailing whitespace from a character list. -/
def pyStripChars (cs : List Char) : List Char :=
  ((cs.dropWhile isPySpace).reverse.dropWhile isPySpace).reverse

/-- Value of a run of decimal digits. -/
def digitsVal (cs : List Char) : Nat :=
  cs.foldl (fun acc c => acc * 10 + (c.toNat - 48)) 0

/-- Python `int(s)`: optional surrounding whitespace, an optional single
sign, then a non-empty run of decimal digits; everything else raises
`ValueError` — in particular `int("")` does. -/
def pyIntOfString (s : String) : Except PyExc Int :=
  let t := pyStripChars s.data
  let p : Bool × List Char :=
    match t with
    | '-' :: rest => (true, rest)
    | '+' :: rest => (false, rest)
    | _ => (false, t)
  if (!p.2.isEmpty) && p.2.all Char.isDigit then
    if p.1 then .ok (-(digitsVal p.2 : Int)) else .ok (digitsVal p.2 : Int)
  else
    .error (.valueError "invalid literal for int() with base 10")

/-- Python `s.split(".")`: the empty string yields one empty component. -/
def splitOnDot : List Char → List (List Char)
  | [] => [[]]
  | c :: rest =>
    let r := splitOnDot rest
    if c = '.' then [] :: r
    else
      match r with
      | [] => [[c]]
      | g :: gs => (c :: g) :: gs

/-- `tuple(map(int, raw_api_version.split(".")))` — the map is consumed
left to right and the first failing `int()` raises. -/
def parseApiVersion (s : String) : Except PyExc (List Int) :=
  (splitOnDot s.data).mapM (fun cs => pyIntOfString (String.mk cs))

/-- Python tuple `a >= b` on integer tuples: lexicographic, with a proper
prefix comparing below its extensions. -/
def pyTupleGe : List Int → List Int → Bool
  | _, [] => true
  | [], _ :: _ => false
  | a :: as, b :: bs => if a = b then pyTupleGe as bs else decide (b < a)

/-- Resolved device identity (`AggMeta`); the non-version fields are stored
exactly as the code receives them, so they are carried as JSON values. -/
structure AggMeta where
  mac_address : String
  model_id : JVal
  model_name : JVal
  device_name : JVal
  serial_number : JVal
  api_version : List Int

/-- `AggMeta.supports_update_status`: `self.api_version >= (1, 7, 0)`. -/
def AggMeta.supports_update_status (m : AggMeta) : Bool :=
  pyTupleGe m.api_version [1, 7, 0]

/-- The `try/except httpx.HTTPStatusError` around the optional
`get_device_info` call in `aggregate_meta`: a 404 means the device lacks
the endpoint (`device_info = None`); every other exception is re-raised. -/
def catch404 : Except PyExc JVal → Except PyExc JVal
  | .ok v => .ok v
  | .error (.httpStatusError s) =>
    if s = 404 then .ok .null else .error (.httpStatusError s)
  | .error e => .error e

/-- The combination step of `VZugApi.aggregate_meta`: given the results of
the four mandatory fetches and the outcome of the optional
`get_device_info` call, catch an HTTP 404 (the device lacks the endpoint,
`device_info = None`), re-raise every other exception, then populate
`AggMeta` from `device_info` when it is truthy and from the legacy data
(device status, model description, legacy firmware) otherwise. -/
def aggregate_meta_combine (mac_address : String) (device_status : JVal)
    (model_description : String) (ai_firmware : JVal)
    (device_info_fetch : Except PyExc JVal) : Except PyExc AggMeta := do
  let device_info : JVal ← catch404 device_info_fetch
  if pyTruthy device_info then do
    let rawVersion ← asPyStr (← jGet device_info "apiVersion" (.str ""))
    let hhApiVersion ← parseApiVersion rawVersion
    let modelId ← jGet device_info "model" (.str "")
    let modelName ← jGet device_info "description" (.str "")
    let deviceName ← jGet device_info "name" (.str "")
    let serialNumber ← jGet device_info "serialNumber" (.str "")
    .ok ⟨mac_address, modelId, modelName, deviceName, serialNumber, hhApiVersion⟩
  else do
    let rawVersion ← asPyStr (← jGet ai_firmware "apiVersion" (.str ""))
    let aiApiVersion ← parseApiVersion rawVersion
    let deviceName ← jGet device_status "DeviceName" (.str "")
    let serialNumber ← jGet device_status "Serial" (.str "")
    .ok ⟨mac_address, .str "", .str model_description, deviceName, serialNumber,
         aiApiVersion⟩

/-- Python's tuple `>=` agrees with the negation of Mathlib's strict
lexicographic order (prefixes below their extensions). -/
theorem pyTupleGe_iff_not_lex (a b : List Int) :
    pyTupleGe a b = true ↔ ¬ List.Lex (· < ·) a b := by
  induction a generalizing b with
  | nil =>
    cases b with
    | nil =>
      constructor
      · intro _ h; cases h
      · intro _; rfl
    | cons y ys =>
      constructor
      · intro h; simp [pyTupleGe] at h
      · intro h; exact absurd List.Lex.nil h
  | cons x xs ih =>
    cases b with
    | nil =>
      constructor
      · intro _ h; cases h
      · intro _; rfl
    | cons y ys =>
      by_cases hxy : x = y
      · subst hxy
        rw [pyTupleGe, if_pos rfl, ih ys]
        constructor
        · intro h hl
          cases hl with
          | cons hl' => exact h hl'
          | rel hlt => omega
        · intro h hl
          exact h (List.Lex.cons hl)
      · rw [pyTupleGe, if_neg hxy]
        rw [decide_eq_true_iff]
        constructor
        · intro hyx hl
          cases hl with
          | cons _ => exact hxy rfl
          | rel hlt => omega
        · intro h
          by_contra hyx
          exact h (List.Lex.rel (by omega))

/-- C5 counterexample: a truthy device-info mapping without an `apiVersion`
key makes `aggregate_meta` raise `ValueError` — `int("")` fails on the
empty default string — instead of returning an `AggMeta` with the empty
tuple as a degraded `api_version`. -/
theorem aggregate_meta_missing_api_version_raises :
    aggregate_meta_combine "00:11:22:33:44:55" (.obj []) "Adora" (.obj [])
        (.ok (.obj [("model", .str "AW4000")])) =
      .error (.valueError "invalid literal for int() with base 10") :=
  rfl

/-- C5 (amended): a missing or unparseable `apiVersion` string makes
`aggregate_meta` raise `ValueError` rather than degrade (the empty tuple
never arises from parsing); when the string is a dot-separated sequence of
valid integer numerals, aggregation succeeds with exactly the parsed tuple
as `api_version`, and `supports_update_status` compares that tuple
lexicographically against `(1, 7, 0)`. -/
theorem aggregate_meta_api_version_behaviour
    (mac : String) (ds : JVal) (md : String) (aifw : JVal)
    (dfields : List (String × JVal)) (rawVersion : String) (vs : List Int)
    (hne : dfields ≠ [])
    (hver : dictLookup dfields "apiVersion" = some (.str rawVersion))
    (hparse : parseApiVersion rawVersion = .ok vs) :
    aggregate_meta_combine mac ds md aifw (.ok (.obj dfields)) =
      .ok ⟨mac, (dictLookup dfields "model").getD (.str ""),
           (dictLookup dfields "description").getD (.str ""),
           (dictLookup dfields "name").getD (.str ""),
           (dictLookup dfields "serialNumber").getD (.str ""), vs⟩ ∧
    parseApiVersion "" = .error (.valueError "invalid literal for int() with base 10") ∧
    (∀ m : AggMeta, m.supports_update_status = true ↔
      ¬ List.Lex (· < ·) m.api_version [1, 7, 0]) := by
  refine ⟨?_, rfl, fun m => pyTupleGe_iff_not_lex _ _⟩
  have htr : pyTruthy (.obj dfields) = true := by
    simp [pyTruthy, hne]
  simp [aggregate_meta_combine, bind, Except.bind, pure, Except.pure, htr, hver, hparse,
    jGet, asPyStr, catch404]

/-- A concrete truthy device-info mapping with a parseable `apiVersion`,
used by witnesses. -/
def sampleDeviceInfoFields : List (String × JVal) :=
  [("apiVersion", .str "1.8.0"), ("model", .str "AW")]

/-- Witness for C5 (amended): on a device-info mapping carrying
`apiVersion = "1.8.0"`, aggregation succeeds with `api_version = (1, 8, 0)`,
while `int("")` still raises. -/
theorem aggregate_meta_api_version_behaviour_witness :
    (sampleDeviceInfoFields ≠ [] ∧
     dictLookup sampleDeviceInfoFields "apiVersion" = some (.str "1.8.0") ∧
     parseApiVersion "1.8.0" = .ok [1, 8, 0]) ∧
    (aggregate_meta_combine "44:55:66" (.obj []) "Adora" (.obj [])
        (.ok (.obj sampleDeviceInfoFields)) =
      .ok ⟨"44:55:66",
           (dictLookup sampleDeviceInfoFields "model").getD (.str ""),
           (dictLookup sampleDeviceInfoFields "description").getD (.str ""),
           (dictLookup sampleDeviceInfoFields "name").getD (.str ""),
           (dictLookup sampleDeviceInfoFields "serialNumber").getD (.str ""),
           [1, 8, 0]⟩ ∧
     parseApiVersion "" = .error (.valueError "invalid literal for int() with base 10") ∧
     (∀ m : AggMeta, m.supports_update_status = true ↔
       ¬ List.Lex (· < ·) m.api_version [1, 7, 0])) :=
  ⟨⟨List.cons_ne_nil _ _, rfl, rfl⟩,
   aggregate_meta_api_version_behaviour "44:55:66" (.obj []) "Adora" (.obj [])
     sampleDeviceInfoFields "1.8.0" [1, 8, 0] (List.cons_ne_nil _ _) rfl rfl⟩

/-- The `_command` configuration of `VZugApi.get_device_info` as invoked by
`aggregate_meta` (`default_on_error=True`): `expected_type=dict` with a
fallback producing the empty `DeviceInfo()` mapping, all other keywords at
their defaults. -/
def getDeviceInfoConfig : CommandConfig :=
  { expectedType := .dictE, valueOnErr := some (.obj []) }

/-- C6 counterexample: when the optional device-info endpoint persistently
answers HTTP 500 — an "other HTTP error status", not 404 — no error
propagates out of `aggregate_meta`: `get_device_info` is invoked with a
default-on-error fallback, so the exhausted retries return the empty
mapping, which is falsy and sends `aggregate_meta` down the legacy branch
exactly as a 404 would. -/
theorem aggregate_meta_5xx_no_propagation :
    runCommand getDeviceInfoConfig (fun _ => .response ⟨500, "", .empty⟩) 6 =
      some ⟨.ok (.obj []), 5,
            (List.range 5).map (fun i => ((i : Nat) : Rat) * 2), true⟩ ∧
    aggregate_meta_combine "aa:bb"
        (.obj [("DeviceName", .str "Oven"), ("Serial", .str "123")]) "Adora"
        (.obj [("apiVersion", .str "1.5.0")]) (.ok (.obj [])) =
      .ok ⟨"aa:bb", .str "", .str "Adora", .str "Oven", .str "123", [1, 5, 0]⟩ :=
  ⟨rfl, rfl⟩

/-- C6 (amended): a 404 from the optional device-info endpoint makes
`aggregate_meta` populate the `AggMeta` entirely from the legacy data, with
`api_version` parsed from the legacy firmware's `apiVersion` string; every
other exception from the device-info fetch that reaches `aggregate_meta`
is re-raised — but a persistent 5xx never reaches it: `get_device_info` is
called with `default_on_error=True`, so after its `attempts` are exhausted
it returns the empty mapping and `aggregate_meta` takes the same legacy
branch instead of propagating the 5xx. -/
theorem aggregate_meta_optional_endpoint_behaviour
    (mac : String) (md : String)
    (dsFields aifwFields : List (String × JVal))
    (rawVersion : String) (vs : List Int)
    (hver : dictLookup aifwFields "apiVersion" = some (.str rawVersion))
    (hparse : parseApiVersion rawVersion = .ok vs) :
    (aggregate_meta_combine mac (.obj dsFields) md (.obj aifwFields)
        (.error (.httpStatusError 404)) =
      .ok ⟨mac, .str "", .str md,
           (dictLookup dsFields "DeviceName").getD (.str ""),
           (dictLookup dsFields "Serial").getD (.str ""), vs⟩) ∧
    (∀ e : PyExc, e ≠ .httpStatusError 404 →
      aggregate_meta_combine mac (.obj dsFields) md (.obj aifwFields) (.error e) =
        .error e) ∧
    (∀ (env : Nat → AttemptEvent) (f : Nat),
      (∀ j, j < getDeviceInfoConfig.attempts → is5xxEvent (env j) = true) →
      runCommand getDeviceInfoConfig env (getDeviceInfoConfig.attempts + (f + 1)) =
        some ⟨.ok (.obj []), getDeviceInfoConfig.attempts,
              (List.range getDeviceInfoConfig.attempts).map
                (fun i => ((i : Nat) : Rat) * getDeviceInfoConfig.retryDelay), true⟩ ∧
      aggregate_meta_combine mac (.obj dsFields) md (.obj aifwFields) (.ok (.obj [])) =
        .ok ⟨mac, .str "", .str md,
             (dictLookup dsFields "DeviceName").getD (.str ""),
             (dictLookup dsFields "Serial").getD (.str ""), vs⟩) := by
  have hlegacy :
      ∀ (dif : Except PyExc JVal) (di : JVal),
        catch404 dif = .ok di → pyTruthy di = false →
        aggregate_meta_combine mac (.obj dsFields) md (.obj aifwFields) dif =
          .ok ⟨mac, .str "", .str md,
               (dictLookup dsFields "DeviceName").getD (.str ""),
               (dictLookup dsFields "Serial").getD (.str ""), vs⟩ := by
    intro dif di h htr
    simp [aggregate_meta_combine, bind, Except.bind, h, htr, jGet, asPyStr, hver, hparse]
  refine ⟨?_, ?_, ?_⟩
  · exact hlegacy _ .null (by simp [catch404]) rfl
  · intro e he
    cases e with
    | httpStatusError s =>
      have hs : ¬ s = 404 := fun h => he (by rw [h])
      simp [aggregate_meta_combine, bind, Except.bind, catch404, hs]
    | transportError => rfl
    | authenticationFailed => rfl
    | assertionError msg => rfl
    | valueError msg => rfl
    | otherError msg => rfl
  · intro env f h5
    refine ⟨?_, hlegacy _ (.obj []) (by simp [catch404]) rfl⟩
    have h := runCommand_all5xx getDeviceInfoConfig env f (by decide) h5
    simpa [getDeviceInfoConfig] using h

/-- Concrete device-status fields used by witnesses. -/
def sampleStatusFields : List (String × JVal) :=
  [("DeviceName", .str "Oven"), ("Serial", .str "123")]

/-- Concrete legacy-firmware fields used by witnesses. -/
def sampleAiFwFields : List (String × JVal) :=
  [("apiVersion", .str "1.5.0")]

/-- Witness for C6 (amended) at concrete legacy data whose firmware string
parses to `(1, 5, 0)`. -/
theorem aggregate_meta_optional_endpoint_behaviour_witness :
    (dictLookup sampleAiFwFields "apiVersion" = some (.str "1.5.0") ∧
     parseApiVersion "1.5.0" = .ok [1, 5, 0]) ∧
    ((aggregate_meta_combine "aa:bb" (.obj sampleStatusFields) "Adora"
        (.obj sampleAiFwFields) (.error (.httpStatusError 404)) =
      .ok ⟨"aa:bb", .str "", .str "Adora",
           (dictLookup sampleStatusFields "DeviceName").getD (.str ""),
           (dictLookup sampleStatusFields "Serial").getD (.str ""), [1, 5, 0]⟩) ∧
    (∀ e : PyExc, e ≠ .httpStatusError 404 →
      aggregate_meta_combine "aa:bb" (.obj sampleStatusFields) "Adora"
          (.obj sampleAiFwFields) (.error e) =
        .error e) ∧
    (∀ (env : Nat → AttemptEvent) (f : Nat),
      (∀ j, j < getDeviceInfoConfig.attempts → is5xxEvent (env j) = true) →
      runCommand getDeviceInfoConfig env (getDeviceInfoConfig.attempts + (f + 1)) =
        some ⟨.ok (.obj []), getDeviceInfoConfig.attempts,
              (List.range getDeviceInfoConfig.attempts).map
                (fun i => ((i : Nat) : Rat) * getDeviceInfoConfig.retryDelay), true⟩ ∧
      aggregate_meta_combine "aa:bb" (.obj sampleStatusFields) "Adora"
          (.obj sampleAiFwFields) (.ok (.obj [])) =
        .ok ⟨"aa:bb", .str "", .str "Adora",
             (dictLookup sampleStatusFields "DeviceName").getD (.str ""),
             (dictLookup sampleStatusFields "Serial").getD (.str ""), [1, 5, 0]⟩)) :=
  ⟨⟨rfl, rfl⟩,
   aggregate_meta_optional_endpoint_behaviour "aa:bb" "Adora"
     sampleStatusFields sampleAiFwFields "1.5.0" [1, 5, 0] rfl rfl⟩

/-- Python `x == 0` on a decoded JSON value (`False == 0` holds in Python
because `bool` is an `int` subtype; every non-numeric, non-bool value
compares unequal to `0`). -/
def pyEqZero : JVal → Bool
  | .num q => q = 0
  | .bool b => b = false
  | _ => false

/-- The zero-total normalisation in `VZugApi.get_eco_info`:
`result.get("water", {}).get("total", 0)` and the analogous energy total
are computed; if both equal zero, the empty `EcoInfo()` replaces the
decoded mapping, which is otherwise returned unchanged. -/
def get_eco_info_post (result : JVal) : Except PyExc JVal := do
  let water ← jGet result "water" (.obj [])
  let waterTotal ← jGet water "total" (.num 0)
  let energy ← jGet result "energy" (.obj [])
  let energyTotal ← jGet energy "total" (.num 0)
  if pyEqZero waterTotal && pyEqZero energyTotal then
    .ok (.obj [])
  else
    .ok result

/-- The decoded response has the declared `EcoInfo` shape at `key`: the
metric, when present, is a mapping whose `total`, when present, is a
number. -/
def ecoMetricFieldShaped (fs : List (String × JVal)) (key : String) : Bool :=
  match dictLookup fs key with
  | none => true
  | some (.obj ms) =>
    match dictLookup ms "total" with
    | none => true
    | some (.num _) => true
    | some _ => false
  | some _ => false

/-- The total the code extracts for `key`: the metric's `total` when
present, `0` for a missing metric or missing total. -/
def ecoTotalOf (fs : List (String × JVal)) (key : String) : Rat :=
  match dictLookup fs key with
  | some (.obj ms) =>
    match dictLookup ms "total" with
    | some (.num q) => q
    | _ => 0
  | _ => 0

theorem jGet_obj (fs : List (String × JVal)) (key : String) (dflt : JVal) :
    jGet (.obj fs) key dflt = .ok ((dictLookup fs key).getD dflt) := rfl

theorem eco_total_get (fs : List (String × JVal)) (key : String)
    (h : ecoMetricFieldShaped fs key = true) :
    jGet ((dictLookup fs key).getD (.obj [])) "total" (.num 0) =
      .ok (.num (ecoTotalOf fs key)) := by
  cases hk : dictLookup fs key with
  | none => simp [jGet, ecoTotalOf, hk, dictLookup]
  | some m =>
    cases m with
    | obj ms =>
      cases ht : dictLookup ms "total" with
      | none => simp [jGet, ecoTotalOf, hk, ht]
      | some t =>
        cases t with
        | num q => simp [jGet, ecoTotalOf, hk, ht]
        | null => simp [ecoMetricFieldShaped, hk, ht] at h
        | bool b => simp [ecoMetricFieldShaped, hk, ht] at h
        | str s => simp [ecoMetricFieldShaped, hk, ht] at h
        | arr xs => simp [ecoMetricFieldShaped, hk, ht] at h
        | obj gs => simp [ecoMetricFieldShaped, hk, ht] at h
    | null => simp [ecoMetricFieldShaped, hk] at h
    | bool b => simp [ecoMetricFieldShaped, hk] at h
    | num q => simp [ecoMetricFieldShaped, hk] at h
    | str s => simp [ecoMetricFieldShaped, hk] at h
    | arr xs => simp [ecoMetricFieldShaped, hk] at h

/-- C7: for every successfully decoded eco-info response (a mapping of the
declared `EcoInfo` shape), `get_eco_info` returns the empty mapping when
the response's `water.total` and `energy.total` are both `0` — treating a
missing metric or a missing total as `0` — and returns the decoded mapping
unchanged whenever at least one of the two totals is non-zero; it never
yields an error or a mixed structure. -/
theorem get_eco_info_empty_or_unchanged
    (fs : List (String × JVal))
    (hw : ecoMetricFieldShaped fs "water" = true)
    (he : ecoMetricFieldShaped fs "energy" = true) :
    (ecoTotalOf fs "water" = 0 ∧ ecoTotalOf fs "energy" = 0 →
      get_eco_info_post (.obj fs) = .ok (.obj [])) ∧
    (¬ (ecoTotalOf fs "water" = 0 ∧ ecoTotalOf fs "energy" = 0) →
      get_eco_info_post (.obj fs) = .ok (.obj fs)) := by
  have hw' := eco_total_get fs "water" hw
  have he' := eco_total_get fs "energy" he
  constructor
  · rintro ⟨h1, h2⟩
    simp [get_eco_info_post, bind, Except.bind, jGet_obj, hw', he', h1, h2, pyEqZero]
  · intro h
    rcases not_and_or.mp h with h | h <;>
      simp [get_eco_info_post, bind, Except.bind, jGet_obj, hw', he', h, pyEqZero]

/-- A concrete eco-info response with `water.total = 3` and
`energy.total = 0`, used by witnesses. -/
def sampleEcoFields : List (String × JVal) :=
  [("water", .obj [("total", .num 3)]), ("energy", .obj [("total", .num 0)])]

/-- Witness for C7 at a response with `water.total = 3` and a zero energy
total: the mapping is returned unchanged. -/
theorem get_eco_info_empty_or_unchanged_witness :
    (ecoMetricFieldShaped sampleEcoFields "water" = true ∧
     ecoMetricFieldShaped sampleEcoFields "energy" = true) ∧
    ((ecoTotalOf sampleEcoFields "water" = 0 ∧ ecoTotalOf sampleEcoFields "energy" = 0 →
      get_eco_info_post (.obj sampleEcoFields) = .ok (.obj [])) ∧
     (¬ (ecoTotalOf sampleEcoFields "water" = 0 ∧
         ecoTotalOf sampleEcoFields "energy" = 0) →
      get_eco_info_post (.obj sampleEcoFields) = .ok (.obj sampleEcoFields))) :=
  ⟨⟨rfl, rfl⟩, get_eco_info_empty_or_unchanged sampleEcoFields rfl rfl⟩

/-- The fixed `ProgramInfo` key set —
`ProgramInfo.__required_keys__ | ProgramInfo.__optional_keys__` (all four
keys are optional, so the union is the full declared set). -/
def programInfoKeys : List String := ["id", "name", "status", "stepIds"]

/-- A program descriptor split into the fixed identity fields and the
residual option mapping. -/
structure Program where
  info : List (String × JVal)
  options : List (String × JVal)

/-- `del options[key]` on a dict (unique keys). -/
def dictRemove (fs : List (String × JVal)) (key : String) :
    List (String × JVal) :=
  fs.filter (fun kv => kv.1 ≠ key)

/-- One iteration of the loop in `Program.build`: move `key` from
`options` to `info` when present (`info[key] = options[key]; del
options[key]`), and leave the state unchanged on `LookupError`. -/
def moveKey (st : List (String × JVal) × List (String × JVal)) (key : String) :
    List (String × JVal) × List (String × JVal) :=
  match dictLookup st.2 key with
  | some v => (st.1 ++ [(key, v)], dictRemove st.2 key)
  | none => st

/-- `Program.build raw`: start from `info = {}`, `options = raw.copy()`,
and move every `ProgramInfo` key across. -/
def Program.build (raw : List (String × JVal)) : Program :=
  let st := programInfoKeys.foldl moveKey ([], raw)
  ⟨st.1, st.2⟩

theorem dictLookup_some_mem {fs : List (String × JVal)} {key : String} {v : JVal}
    (h : dictLookup fs key = some v) : (key, v) ∈ fs := by
  induction fs with
  | nil => simp [dictLookup] at h
  | cons kv rest ih =>
    obtain ⟨k, w⟩ := kv
    by_cases hk : k = key
    · subst hk
      simp [dictLookup] at h
      simp [h]
    · simp [dictLookup, hk] at h
      exact List.mem_cons_of_mem _ (ih h)

theorem dictLookup_none_not_mem {fs : List (String × JVal)} {key : String}
    (h : dictLookup fs key = none) : ∀ w, (key, w) ∉ fs := by
  induction fs with
  | nil => simp
  | cons kv rest ih =>
    obtain ⟨k, u⟩ := kv
    by_cases hk : k = key
    · subst hk; simp [dictLookup] at h
    · simp [dictLookup, hk] at h
      intro w hw
      rcases List.mem_cons.mp hw with he | hm
      · exact hk (congrArg Prod.fst he).symm
      · exact ih h w hm

theorem dictLookup_unique {fs : List (String × JVal)} {key : String} {w v : JVal}
    (hnd : (fs.map Prod.fst).Nodup) (hmem : (key, w) ∈ fs)
    (h : dictLookup fs key = some v) : w = v := by
  induction fs with
  | nil => simp at hmem
  | cons kv rest ih =>
    obtain ⟨k, u⟩ := kv
    rw [List.map_cons, List.nodup_cons] at hnd
    by_cases hk : k = key
    · subst hk
      simp [dictLookup] at h
      rcases List.mem_cons.mp hmem with he | hm
      · rw [← h]
        exact (congrArg Prod.snd he)
      · exact absurd (List.mem_map_of_mem Prod.fst hm) hnd.1
    · simp [dictLookup, hk] at h
      rcases List.mem_cons.mp hmem with he | hm
      · exact absurd (congrArg Prod.fst he).symm hk
      · exact ih hnd.2 hm h

theorem mem_dictRemove (kv : String × JVal) (fs : List (String × JVal))
    (key : String) : kv ∈ dictRemove fs key ↔ kv ∈ fs ∧ ¬ kv.1 = key := by
  simp [dictRemove]

theorem foldl_moveKey_mem (keys : List String) :
    ∀ (info options : List (String × JVal)),
      (options.map Prod.fst).Nodup →
      (∀ a b, (a, b) ∈ (keys.foldl moveKey (info, options)).1 ↔
          (a, b) ∈ info ∨ ((a, b) ∈ options ∧ a ∈ keys)) ∧
      (∀ a b, (a, b) ∈ (keys.foldl moveKey (info, options)).2 ↔
          (a, b) ∈ options ∧ a ∉ keys) := by
  induction keys with
  | nil =>
    intro info options _
    simp
  | cons k rest ih =>
    intro info options hnd
    rw [List.foldl_cons]
    cases hlk : dictLookup options k with
    | none =>
      have hnm := dictLookup_none_not_mem hlk
      have hmk : moveKey (info, options) k = (info, options) := by
        simp [moveKey, hlk]
      rw [hmk]
      obtain ⟨h1, h2⟩ := ih info options hnd
      refine ⟨fun a b => ?_, fun a b => ?_⟩
      · rw [h1 a b]
        constructor
        · rintro (h | ⟨hm, hk⟩)
          · exact Or.inl h
          · exact Or.inr ⟨hm, List.mem_cons_of_mem _ hk⟩
        · rintro (h | ⟨hm, hk⟩)
          · exact Or.inl h
          · rcases List.mem_cons.mp hk with he | hr
            · exact absurd hm (by rw [he]; exact hnm b)
            · exact Or.inr ⟨hm, hr⟩
      · rw [h2 a b]
        constructor
        · rintro ⟨hm, hk⟩
          refine ⟨hm, fun hc => ?_⟩
          rcases List.mem_cons.mp hc with he | hr
          · rw [he] at hm; exact hnm b hm
          · exact hk hr
        · rintro ⟨hm, hk⟩
          exact ⟨hm, fun hr => hk (List.mem_cons_of_mem _ hr)⟩
    | some v =>
      have hmem := dictLookup_some_mem hlk
      have hmk : moveKey (info, options) k =
          (info ++ [(k, v)], dictRemove options k) := by
        simp [moveKey, hlk]
      rw [hmk]
      have hsub : (dictRemove options k).Sublist options := List.filter_sublist _
      have hnd' : ((dictRemove options k).map Prod.fst).Nodup :=
        ((hsub.map Prod.fst).nodup hnd)
      obtain ⟨h1, h2⟩ := ih (info ++ [(k, v)]) (dictRemove options k) hnd'
      refine ⟨fun a b => ?_, fun a b => ?_⟩
      · rw [h1 a b, List.mem_append, mem_dictRemove]
        constructor
        · rintro ((h | h) | ⟨⟨hm, hne⟩, hk⟩)
          · exact Or.inl h
          · have hab : a = k ∧ b = v := by simpa using h
            obtain ⟨rfl, rfl⟩ := hab
            exact Or.inr ⟨hmem, List.mem_cons_self _ _⟩
          · exact Or.inr ⟨hm, List.mem_cons_of_mem _ hk⟩
        · rintro (h | ⟨hm, hk⟩)
          · exact Or.inl (Or.inl h)
          · by_cases hak : a = k
            · subst hak
              have hb := dictLookup_unique hnd hm hlk
              subst hb
              exact Or.inl (Or.inr (by simp))
            · rcases List.mem_cons.mp hk with he | hr
              · exact absurd he hak
              · exact Or.inr ⟨⟨hm, hak⟩, hr⟩
      · rw [h2 a b, mem_dictRemove]
        constructor
        · rintro ⟨⟨hm, hne⟩, hk⟩
          exact ⟨hm, fun hc => (List.mem_cons.mp hc).elim hne hk⟩
        · rintro ⟨hm, hk⟩
          have hne : ¬ a = k := fun he => hk (by rw [he]; exact List.mem_cons_self _ _)
          exact ⟨⟨hm, hne⟩, fun hr => hk (List.mem_cons_of_mem _ hr)⟩

/-- C8: for every raw flat mapping (a dict, so keys are pairwise
distinct), `Program.build` splits it into a `Program` whose `info`
contains exactly the raw entries whose key belongs to `ProgramInfo`'s
fixed key set (`id`, `name`, `status`, `stepIds`) with their original
values, and whose `options` contains exactly the remaining entries with
their original values; the two key sets are disjoint and their union is
the raw mapping's key set. -/
theorem program_build_partitions (raw : List (String × JVal))
    (hnd : (raw.map Prod.fst).Nodup) :
    (∀ a b, (a, b) ∈ (Program.build raw).info ↔
        (a, b) ∈ raw ∧ a ∈ programInfoKeys) ∧
    (∀ a b, (a, b) ∈ (Program.build raw).options ↔
        (a, b) ∈ raw ∧ a ∉ programInfoKeys) ∧
    (∀ a, ¬ ((∃ b, (a, b) ∈ (Program.build raw).info) ∧
             (∃ b, (a, b) ∈ (Program.build raw).options))) ∧
    (∀ a, (∃ b, (a, b) ∈ raw) ↔
        ((∃ b, (a, b) ∈ (Program.build raw).info) ∨
         (∃ b, (a, b) ∈ (Program.build raw).options))) := by
  obtain ⟨h1, h2⟩ := foldl_moveKey_mem programInfoKeys [] raw hnd
  have h1' : ∀ a b, (a, b) ∈ (Program.build raw).info ↔
      (a, b) ∈ raw ∧ a ∈ programInfoKeys := by
    intro a b
    simpa [Program.build] using h1 a b
  have h2' : ∀ a b, (a, b) ∈ (Program.build raw).options ↔
      (a, b) ∈ raw ∧ a ∉ programInfoKeys := by
    intro a b
    simpa [Program.build] using h2 a b
  refine ⟨h1', h2', ?_, ?_⟩
  · rintro a ⟨⟨b1, hb1⟩, ⟨b2, hb2⟩⟩
    rw [h1' a b1] at hb1
    rw [h2' a b2] at hb2
    exact hb2.2 hb1.2
  · intro a
    constructor
    · rintro ⟨b, hb⟩
      by_cases hk : a ∈ programInfoKeys
      · exact Or.inl ⟨b, (h1' a b).mpr ⟨hb, hk⟩⟩
      · exact Or.inr ⟨b, (h2' a b).mpr ⟨hb, hk⟩⟩
    · rintro (⟨b, hb⟩ | ⟨b, hb⟩)
      · exact ⟨b, ((h1' a b).mp hb).1⟩
      · exact ⟨b, ((h2' a b).mp hb).1⟩

/-- A concrete raw program mapping mixing fixed and extra fields, used by
witnesses. -/
def sampleProgramRaw : List (String × JVal) :=
  [("id", .num 50), ("name", .str "Eco"), ("status", .str "selected"),
   ("duration", .obj [("set", .num 22440)]),
   ("energySaving", .obj [("set", .bool false)])]

/-- Witness for C8 on a raw mapping with `id`, `name`, `status` plus
`duration` and `energySaving` extras. -/
theorem program_build_partitions_witness :
    (sampleProgramRaw.map Prod.fst).Nodup ∧
    ((∀ a b, (a, b) ∈ (Program.build sampleProgramRaw).info ↔
        (a, b) ∈ sampleProgramRaw ∧ a ∈ programInfoKeys) ∧
     (∀ a b, (a, b) ∈ (Program.build sampleProgramRaw).options ↔
        (a, b) ∈ sampleProgramRaw ∧ a ∉ programInfoKeys) ∧
     (∀ a, ¬ ((∃ b, (a, b) ∈ (Program.build sampleProgramRaw).info) ∧
              (∃ b, (a, b) ∈ (Program.build sampleProgramRaw).options))) ∧
     (∀ a, (∃ b, (a, b) ∈ sampleProgramRaw) ↔
        ((∃ b, (a, b) ∈ (Program.build sampleProgramRaw).info) ∨
         (∃ b, (a, b) ∈ (Program.build sampleProgramRaw).options)))) :=
  ⟨by decide, program_build_partitions sampleProgramRaw (by decide)⟩

/-- A domain accessor described as the `_command` invocation it makes:
component, command verb, string query parameters, and keyword
configuration. -/
structure AccessorCall where
  component : String
  command : String
  params : List (String × String)
  cfg : CommandConfig

/-- `VZugApi.set_command(command, value)`:
`_command("hh", command=f"set{command}", params={"value": value},
raw=True, attempts=2)`. -/
def set_command_call (command value : String) : AccessorCall :=
  ⟨"hh", "set" ++ command, [("value", value)], { raw := true, attempts := 2 }⟩

/-- `VZugApi.do_command_action(command)`:
`_command("hh", command=f"do{command}", raw=True, attempts=2)`. -/
def do_command_action_call (command : String) : AccessorCall :=
  ⟨"hh", "do" ++ command, [], { raw := true, attempts := 2 }⟩

/-- `VZugApi.do_ai_update()`: `_command("ai", command="doAIUpdate")` —
every keyword is left at its default. -/
def do_ai_update_call : AccessorCall :=
  ⟨"ai", "doAIUpdate", [], {}⟩

/-- `VZugApi.do_hhg_update()`: `_command("ai", command="doHHGUpdate")` —
every keyword is left at its default. -/
def do_hhg_update_call : AccessorCall :=
  ⟨"ai", "doHHGUpdate", [], {}⟩

/-- C9 counterexample: the firmware-update mutators do not use raw-text
handling or the 2-attempt budget — `do_ai_update` and `do_hhg_update`
invoke the Command Executor with all keywords at their defaults:
`raw=False` (JSON decoding) and `attempts=5`. -/
theorem firmware_update_calls_use_defaults :
    do_ai_update_call.cfg.raw = false ∧ do_ai_update_call.cfg.attempts = 5 ∧
    do_hhg_update_call.cfg.raw = false ∧ do_hhg_update_call.cfg.attempts = 5 :=
  ⟨rfl, rfl, rfl, rfl⟩

/-- C9 (amended): the value-setting and action-triggering accessors
(`set_command`, `do_command_action`) invoke the Command Executor with
`raw=True` and the short 2-attempt budget, but the firmware-update
triggers (`do_ai_update`, `do_hhg_update`) use the Executor defaults:
JSON-decoded responses and 5 attempts. -/
theorem mutating_accessor_configs :
    (∀ command value : String,
      (set_command_call command value).cfg.raw = true ∧
      (set_command_call command value).cfg.attempts = 2) ∧
    (∀ command : String,
      (do_command_action_call command).cfg.raw = true ∧
      (do_command_action_call command).cfg.attempts = 2) ∧
    (do_ai_update_call.cfg.raw = false ∧ do_ai_update_call.cfg.attempts = 5) ∧
    (do_hhg_update_call.cfg.raw = false ∧ do_hhg_update_call.cfg.attempts = 5) :=
  ⟨fun _ _ => ⟨rfl, rfl⟩, fun _ => ⟨rfl, rfl⟩, ⟨rfl, rfl⟩, ⟨rfl, rfl⟩⟩

/-- Whether a dict has an entry for `key`. -/
def dictContainsKey (fs : List (String × JVal)) (key : String) : Bool :=
  match dictLookup fs key with
  | some _ => true
  | none => false

/-- Python `d[key] = v`: replace the entry in place when the key exists,
append otherwise. -/
def pySetItem (fs : List (String × JVal)) (key : String) (v : JVal) :
    List (String × JVal) :=
  if dictContainsKey fs key then
    fs.map (fun kv => if kv.1 = key then (key, v) else kv)
  else
    fs ++ [(key, v)]

/-- The observable dictionary effects of one `VZugApi.set_program` call. -/
structure SetProgramEffect where
  request_options : List (String × JVal)
  caller_options_after : Option (List (String × JVal))

/-- The option handling of `VZugApi.set_program(program_id, options)`:
`if not options: options = {}` rebinds the local name to a fresh dict when
the caller passed `None` or an empty dict, leaving the caller's object
untouched; otherwise the local name stays aliased to the caller's dict and
`options["id"] = program_id` mutates it in place. `request_options` is the
dict serialized into the request's `value` parameter;
`caller_options_after` is the caller's dict after the call (`none` when
the caller passed `None`). -/
def set_program_effect (program_id : Int)
    (options : Option (List (String × JVal))) : SetProgramEffect :=
  match options with
  | none => ⟨pySetItem [] "id" (.num program_id), none⟩
  | some d =>
    if d.isEmpty then ⟨pySetItem [] "id" (.num program_id), some d⟩
    else
      let d' := pySetItem d "id" (.num program_id)
      ⟨d', some d'⟩

/-- The observable dictionary effects of the parameter handling at the top
of `VZugApi._command`. -/
structure CommandParamsEffect where
  final_params : List (String × JVal)
  caller_params_after : Option (List (String × JVal))

/-- The parameter handling of `VZugApi._command`: `final_params =
params.copy()`, then the `command` and cache-busting `_` entries are
written into the copy, so the caller's mapping is left unchanged. -/
def command_params_effect (command timestamp : String)
    (params : Option (List (String × JVal))) : CommandParamsEffect :=
  let p := params.getD []
  ⟨pySetItem (pySetItem p "command" (.str command)) "_" (.str timestamp),
   params⟩

/-- C10: a non-empty caller-supplied options mapping passed to
`set_program` is mutated in place — after the call it carries the entry
`"id" ↦ program_id`, so it differs from its prior value whenever it lacked
that entry — while `_command` copies its `params` argument, so
caller-supplied params mappings passed to any other accessor are left
unchanged. -/
theorem set_program_mutates_caller_options
    (program_id : Int) (d : List (String × JVal))
    (hne : d ≠ [])
    (hid : dictLookup d "id" = none) :
    ((set_program_effect program_id (some d)).caller_options_after =
      some (d ++ [("id", .num program_id)]) ∧
     (set_program_effect program_id (some d)).caller_options_after ≠ some d) ∧
    (∀ (command timestamp : String) (params : Option (List (String × JVal))),
      (command_params_effect command timestamp params).caller_params_after =
        params) := by
  have hc : dictContainsKey d "id" = false := by
    simp [dictContainsKey, hid]
  have hie : d.isEmpty = false := by
    cases d with
    | nil => exact absurd rfl hne
    | cons kv rest => rfl
  refine ⟨⟨?_, ?_⟩, fun _ _ _ => rfl⟩
  · simp [set_program_effect, hie, pySetItem, hc]
  · simp only [set_program_effect, hie, Bool.false_eq_true, if_false,
      pySetItem, hc]
    intro h
    have hlen := congrArg List.length (Option.some.injEq _ _ ▸ h)
    simp at hlen

/-- Witness for C10 on the options mapping `{"steamfinish": true}` and
program id 50. -/
theorem set_program_mutates_caller_options_witness :
    (([("steamfinish", JVal.bool true)] : List (String × JVal)) ≠ [] ∧
     dictLookup [("steamfinish", JVal.bool true)] "id" = none) ∧
    (((set_program_effect 50 (some [("steamfinish", JVal.bool true)])).caller_options_after =
        some [("steamfinish", JVal.bool true), ("id", JVal.num 50)] ∧
      (set_program_effect 50 (some [("steamfinish", JVal.bool true)])).caller_options_after ≠
        some [("steamfinish", JVal.bool true)]) ∧
     (∀ (command timestamp : String) (params : Option (List (String × JVal))),
       (command_params_effect command timestamp params).caller_params_after =
         params)) :=
  ⟨⟨List.cons_ne_nil _ _, rfl⟩,
   set_program_mutates_caller_options 50 [("steamfinish", JVal.bool true)]
     (List.cons_ne_nil _ _) rfl⟩

end VZug
